import Mathlib

/-!
Verification development for the Celero micro-benchmarking harness
(`src/include/celero/Celero.h`).  The repository ships only the public
header: declarations of `RegisterTest`, `RegisterBaseline`,
`BuildDistribution`, `Run` and the `CELERO_MAIN` macro.  The engine behind
those declarations (registry, executor, timer, statistics aggregator) is
not in `src/`, so those parts are modelled from the specification, as
flagged on each definition.  Durations are modelled in microseconds as
natural numbers (the header documents `BuildDistribution` results as
microsecond counts held in `uint64_t`), and derived statistics are exact
rationals standing in for the implementation's doubles.
-/

namespace Celero

/-- Modelled from the spec: the role attribute of a benchmark descriptor,
`role ∈ {Baseline, Test}` (spec section 3); the Benchmark class itself is
declared in the absent `celero/Benchmark.h`. -/
inductive Role where
| baseline : Role
| test : Role
deriving DecidableEq

/-- Modelled from the spec: the immutable benchmark descriptor
`(group, name, role, sampleCount, iterationCount, target)` of spec
section 3; the concrete Benchmark class is declared in the absent
`celero/Benchmark.h`.  The factory reference is carried separately (see
`Envs`) because the model keys experiments by (group, name).  `target`
keeps the header's sentinel encoding: `RegisterTest` declares
`const double target = -1` (Celero.h line 63). -/
structure Benchmark where
  group : String
  name : String
  role : Role
  sampleCount : Nat
  iterationCount : Nat
  target : Rat
deriving DecidableEq

/-- Modelled from the spec: registration-time error taxonomy of spec
section 7 (`DuplicateRegistration`, `MultipleBaselines`); the registry
implementation behind `RegisterTest` / `RegisterBaseline` is not in
`src/`. -/
inductive RegError where
| DuplicateRegistration : RegError
| MultipleBaselines : RegError
deriving DecidableEq

/-- Modelled from the spec: `Register` of spec section 4.1 — the registry
is an append-only, registration-ordered list; registering an existing
(group, name) fails with `DuplicateRegistration`, and a second Baseline
for a group fails with `MultipleBaselines`; the registry implementation
is not in `src/`. -/
def register (reg : List Benchmark) (b : Benchmark) : Except RegError (List Benchmark) :=
  if ∃ x ∈ reg, x.group = b.group ∧ x.name = b.name then
    Except.error RegError.DuplicateRegistration
  else if b.role = Role.baseline ∧ ∃ x ∈ reg, x.group = b.group ∧ x.role = Role.baseline then
    Except.error RegError.MultipleBaselines
  else
    Except.ok (reg ++ [b])

/-- Embedding of `celero::RegisterTest` (Celero.h line 63): registers a
non-baseline benchmark with the given configuration; `target` is the
header's trailing `double` parameter whose default is `-1`.  The registry
side effect is made explicit as a state-passing argument. -/
def RegisterTest (reg : List Benchmark) (groupName benchmarkName : String)
    (samples iterations : Nat) (target : Rat) : Except RegError (List Benchmark) :=
  register reg
    { group := groupName, name := benchmarkName, role := Role.test,
      sampleCount := samples, iterationCount := iterations, target := target }

/-- Embedding of a `celero::RegisterTest` call that omits the trailing
target argument: the header substitutes the default `target = -1`
(Celero.h line 63). -/
def RegisterTestNoTarget (reg : List Benchmark) (groupName benchmarkName : String)
    (samples iterations : Nat) : Except RegError (List Benchmark) :=
  RegisterTest reg groupName benchmarkName samples iterations (-1)

/-- Embedding of `celero::RegisterBaseline` (Celero.h line 78): registers
the group's baseline; the signature has no target parameter, so the
descriptor keeps the no-target sentinel `-1`. -/
def RegisterBaseline (reg : List Benchmark) (groupName benchmarkName : String)
    (samples iterations : Nat) : Except RegError (List Benchmark) :=
  register reg
    { group := groupName, name := benchmarkName, role := Role.baseline,
      sampleCount := samples, iterationCount := iterations, target := -1 }

/-- Modelled from the spec: arithmetic mean of a sequence of per-sample
elapsed times (spec section 4.4); the statistics aggregator is not in
`src/`.  Rational stand-in for the implementation's double; the empty
list yields 0 through rational division by zero. -/
def sampleMean (ds : List Nat) : Rat :=
  (Nat.cast ds.sum : Rat) / (Nat.cast ds.length : Rat)

/-- Modelled from the spec: population variance (the square of the
population standard deviation of spec section 4.4); kept as the square so
the statistics stay inside the rationals.  The statistics aggregator is
not in `src/`. -/
def popVariance (ds : List Nat) : Rat :=
  ((ds.map (fun x => ((Nat.cast x : Rat) - sampleMean ds) ^ 2)).sum) / (Nat.cast ds.length : Rat)

/-- Modelled from the spec: the configured relative-precision threshold of
the adaptive sampling loop (spec sections 4.4 and 9: a configuration
constant the implementer chooses and documents; the adaptive loop is not
in `src/`).  This development fixes it at 1%. -/
def adaptiveRSEThreshold : Rat := 1 / 100

/-- Modelled from the spec: the configured minimum sample count of the
adaptive loop's [minimum, cap] bounds (spec section 8); a configuration
constant, fixed here at 10. -/
def adaptiveMinSamples : Nat := 10

/-- Modelled from the spec: the configured upper sample cap of the
adaptive loop (spec sections 4.4 and 8); a configuration constant, fixed
here at 100. -/
def adaptiveMaxSamples : Nat := 100

/-- Modelled from the spec: the test `standardError / mean < threshold`
of spec section 4.4, decided squared so it stays rational:
`SEM ^ 2 = variance / n`, so the comparison is
`variance / n < threshold ^ 2 * mean ^ 2` with a positive mean.  The
statistics aggregator is not in `src/`. -/
def relSEMBelow (ds : List Nat) : Bool :=
  decide (0 < sampleMean ds) &&
    decide (popVariance ds / (Nat.cast ds.length : Rat) <
      adaptiveRSEThreshold ^ 2 * sampleMean ds ^ 2)

/-- Modelled from the spec: the adaptive loop's stopping test after each
new sample — the running relative standard error is below the threshold,
evaluated once the configured minimum number of samples exists (spec
sections 4.4 and 8); not in `src/`. -/
def adaptiveStop (ds : List Nat) : Bool :=
  decide (adaptiveMinSamples ≤ ds.length) && relSEMBelow ds

/-- Modelled from the spec: one step of the incremental adaptive
collection loop of spec section 4.4 — append the next measured sample,
recompute the running standard error, stop when the stopping test holds
or the remaining budget (cap minus samples taken) runs out; not in
`src/`.  `timer k` is the measured duration of sample `k`. -/
def adaptiveGo (timer : Nat → Nat) : List Nat → Nat → List Nat
| acc, 0 => acc
| acc, fuel + 1 =>
  let acc' := acc ++ [timer acc.length]
  if adaptiveStop acc' then acc' else adaptiveGo timer acc' fuel

/-- Modelled from the spec: the adaptive sample-count selection triggered
when `sampleCount == 0` (spec section 4.4; announced by the Celero.h
header comment, lines 32-34: "Set to 0 to have Celero decide how many
samples are required"); the implementation is not in `src/`. -/
def adaptiveSample (timer : Nat → Nat) : List Nat :=
  adaptiveGo timer [] adaptiveMaxSamples

/-- Modelled from the spec: the fixed-count sample loop — sample `k`
measures one full Experiment lifecycle and records the timer's duration;
shared by the Executor and `BuildDistribution` (spec sections 4.5 and
4.6); not in `src/`. -/
def fixedSamples (timer : Nat → Nat) (n : Nat) : List Nat :=
  (List.range n).map timer

/-- Embedding of `celero::BuildDistribution` (Celero.h line 89): runs
`numberOfSamples` workload-free samples through the same sample loop as
ordinary benchmarks and returns every raw microsecond measurement.
`timer` stands for the measurement apparatus; `iterationsPerSample`
configures the trivial body repeated inside each timed span and is
absorbed by what the timer reads. -/
def BuildDistribution (timer : Nat → Nat) (numberOfSamples iterationsPerSample : Nat) :
    List Nat :=
  let _ := iterationsPerSample
  fixedSamples timer numberOfSamples

/-- Modelled from the spec: the observable behaviour of one
Factory-created Experiment (spec sections 4.3 and 6); `celero/TestFixture.h`
and `celero/GenericFactory.h` are not in `src/`.  `sampleTime k` is the
duration the Timer measures around sample `k`'s iteration loop;
`failAt k` is the cause when a lifecycle call (SetUp, Body or TearDown)
raises during sample `k`. -/
structure Experiment where
  sampleTime : Nat → Nat
  failAt : Nat → Option String

/-- Modelled from the spec: the association of each registered
(group, name) with the Experiment its Factory produces (spec section 4.3);
the Factory machinery is not in `src/`. -/
def Envs : Type := String → String → Experiment

/-- Modelled from the spec: the number of samples a benchmark actually
executes — the configured `sampleCount` when positive, the adaptive
loop's count when `sampleCount = 0` (spec sections 4.4 and 4.5; header
comment lines 32-34); not in `src/`. -/
def numSamples (b : Benchmark) (e : Experiment) : Nat :=
  if b.sampleCount = 0 then (adaptiveSample e.sampleTime).length else b.sampleCount

/-- Modelled from the spec: the first lifecycle exception raised during
the benchmark's samples, with its cause, if any (spec sections 4.5 and 7,
`BenchmarkExecutionFailure`); the Executor is not in `src/`. -/
def firstFailure (e : Experiment) (n : Nat) : Option String :=
  (List.range n).findSome? e.failAt

/-- Modelled from the spec: a Result's pass/fail status (spec sections 3
and 7); lifecycle failures and missed targets both end in `Failed`; not
in `src/`. -/
inductive Status where
| Passed : Status
| Failed : Status
deriving DecidableEq

/-- Modelled from the spec: grading against the optional target (spec
sections 4.5 and 8: operations-per-second compared against the
configured threshold, `Pass` when met); with the header's sentinel
encoding a negative target means no target is configured, and the status
is `Passed`.  The Executor is not in `src/`. -/
def statusOf (ops target : Rat) : Status :=
  if 0 ≤ target then (if target ≤ ops then Status.Passed else Status.Failed)
  else Status.Passed

/-- Modelled from the spec: the smallest per-sample time of the Result
record (spec section 3); not in `src/`. -/
def minTime : List Nat → Nat
| [] => 0
| d :: ds => ds.foldl Nat.min d

/-- Modelled from the spec: the largest per-sample time of the Result
record (spec section 3); not in `src/`. -/
def maxTime : List Nat → Nat
| [] => 0
| d :: ds => ds.foldl Nat.max d

/-- Modelled from the spec: the aggregated per-benchmark Result record of
spec sections 3 and 6 — sample count actually used, per-sample
statistics, operations per second, ratio to the group baseline (none when
the group has no baseline), status, and the captured cause when the
lifecycle raised; not in `src/`.  `variance` carries the square of the
population standard deviation so the record stays rational. -/
structure Result where
  group : String
  name : String
  role : Role
  sampleCount : Nat
  mean : Rat
  minSample : Nat
  maxSample : Nat
  variance : Rat
  opsPerSecond : Rat
  ratioToBaseline : Option Rat
  status : Status
  failureCause : Option String
deriving DecidableEq

/-- Modelled from the spec: the mean per-sample time of the group's
baseline, when the group has a registered baseline and its own run did
not raise (spec sections 4.4 and 7, `MissingBaseline`); not in `src/`. -/
def baselineMeanOf (reg : List Benchmark) (envs : Envs) (g : String) : Option Rat :=
  match reg.find? (fun x => decide (x.group = g ∧ x.role = Role.baseline)) with
  | none => none
  | some bb =>
    let e := envs bb.group bb.name
    let n := numSamples bb e
    match firstFailure e n with
    | some _ => none
    | none => some (sampleMean (fixedSamples e.sampleTime n))

/-- Modelled from the spec: the Executor's per-benchmark work of spec
section 4.5 — run the samples (fixed count or adaptive), and either mark
the Result `Failed` with the captured cause when a lifecycle call raised,
or aggregate the duration sequence into the statistics, the
operations-per-second figure `iterationCount / meanSampleTimeInSeconds`
(durations are microseconds), the ratio to the group baseline, and the
target grading; not in `src/`. -/
def resultOf (reg : List Benchmark) (envs : Envs) (b : Benchmark) : Result :=
  let e := envs b.group b.name
  let n := numSamples b e
  match firstFailure e n with
  | some cause =>
    { group := b.group, name := b.name, role := b.role, sampleCount := 0,
      mean := 0, minSample := 0, maxSample := 0, variance := 0,
      opsPerSecond := 0, ratioToBaseline := none,
      status := Status.Failed, failureCause := some cause }
  | none =>
    let ds := fixedSamples e.sampleTime n
    let m := sampleMean ds
    let ops := (Nat.cast b.iterationCount : Rat) / (m / 1000000)
    { group := b.group, name := b.name, role := b.role, sampleCount := ds.length,
      mean := m, minSample := minTime ds, maxSample := maxTime ds,
      variance := popVariance ds, opsPerSecond := ops,
      ratioToBaseline := (baselineMeanOf reg envs b.group).map (fun bm => m / bm),
      status := statusOf ops b.target, failureCause := none }

/-- Modelled from the spec: the distinct group names in first-registration
order (spec section 4.1: insertion order preserved across groups); the
registry walk is not in `src/`. -/
def firstUniq : List String → List String
| [] => []
| s :: rest => s :: (firstUniq rest).filter (fun x => decide (x ≠ s))

/-- Modelled from the spec: the registry's groups in registration order;
not in `src/`. -/
def groupsOf (reg : List Benchmark) : List String :=
  firstUniq (reg.map (fun b => b.group))

/-- Modelled from the spec: one group's members in execution order — the
Baseline (if any) first, then the other benchmarks, each part in
registration order (spec section 4.5); not in `src/`. -/
def membOf (reg : List Benchmark) (g : String) : List Benchmark :=
  reg.filter (fun b => decide (b.group = g ∧ b.role = Role.baseline)) ++
    reg.filter (fun b => decide (b.group = g ∧ b.role ≠ Role.baseline))

/-- Modelled from the spec: the Executor's visiting order — groups in
registration order, the group's Baseline before its other benchmarks
(spec section 4.5); not in `src/`. -/
def executionOrder (reg : List Benchmark) : List Benchmark :=
  (groupsOf reg).flatMap (membOf reg)

/-- Embedding of `celero::Run` (Celero.h line 94) with its engine
modelled from the spec: drives every registered benchmark in execution
order and produces the stream of Results handed to the reporter (spec
section 4.5); the Executor is not in `src/`. -/
def Run (reg : List Benchmark) (envs : Envs) : List Result :=
  (executionOrder reg).map (resultOf reg envs)

/-- Modelled from the spec: `Run` against an explicit reporter — each
Result is handed to the reporter immediately after it is computed (spec
section 4.5, streaming); not in `src/`. -/
def RunFold {ρ : Type} (reporter : ρ → Result → ρ) (r0 : ρ) (reg : List Benchmark)
    (envs : Envs) : ρ :=
  (executionOrder reg).foldl (fun st b => reporter st (resultOf reg envs b)) r0

/-- Embedding of the `CELERO_MAIN` macro (Celero.h line 102):
`int main(int argc, char** argv) { celero::Run(argc, argv); return 0; }` —
the Results `Run` streamed out, paired with the process exit code, which
the macro hard-codes to 0. -/
def celeroMain (reg : List Benchmark) (envs : Envs) : List Result × Int :=
  (Run reg envs, 0)

/-- Modelled from the spec: replacing the Experiment one (group, name)
produces, leaving every other benchmark's Experiment alone; used to state
failure isolation; the Factory machinery is not in `src/`. -/
def updateEnv (envs : Envs) (g n : String) (e : Experiment) : Envs :=
  fun g' n' => if g' = g ∧ n' = n then e else envs g' n'

end Celero

namespace Celero

/-- A string is listed by `firstUniq` exactly when it occurs in the input. -/
theorem mem_firstUniq : ∀ (l : List String) (x : String), x ∈ firstUniq l ↔ x ∈ l
  | [], x => by simp [firstUniq]
  | s :: rest, x => by
    simp only [firstUniq, List.mem_cons, List.mem_filter, decide_eq_true_eq,
      mem_firstUniq rest x]
    by_cases hx : x = s
    · simp [hx]
    · simp [hx]

/-- `firstUniq` lists each string at most once. -/
theorem nodup_firstUniq : ∀ (l : List String), (firstUniq l).Nodup
  | [] => by simp [firstUniq]
  | s :: rest => by
    simp only [firstUniq]
    refine List.nodup_cons.mpr ⟨?_, (nodup_firstUniq rest).filter _⟩
    intro hmem
    have h := (List.mem_filter.mp hmem).2
    simp at h

/-- Every benchmark `membOf` lists for a group carries that group name. -/
theorem group_of_mem_membOf {reg : List Benchmark} {g : String} {x : Benchmark}
    (h : x ∈ membOf reg g) : x.group = g := by
  rcases List.mem_append.mp h with h' | h'
  · exact (of_decide_eq_true (List.mem_filter.mp h').2).1
  · exact (of_decide_eq_true (List.mem_filter.mp h').2).1

/-- A registered benchmark of group `g` is listed by `membOf reg g`. -/
theorem mem_membOf_of_mem {reg : List Benchmark} {g : String} {b : Benchmark}
    (hb : b ∈ reg) (hg : b.group = g) : b ∈ membOf reg g := by
  unfold membOf
  by_cases hr : b.role = Role.baseline
  · exact List.mem_append_left _ (List.mem_filter.mpr ⟨hb, by simp [hg, hr]⟩)
  · exact List.mem_append_right _ (List.mem_filter.mpr ⟨hb, by simp [hg, hr]⟩)

/-- A group no registered benchmark belongs to has no members. -/
theorem membOf_eq_nil {reg : List Benchmark} {g : String}
    (h : g ∉ reg.map (fun b => b.group)) : membOf reg g = [] := by
  unfold membOf
  have hnone : ∀ x ∈ reg, x.group ≠ g := by
    intro x hx heq
    exact h (List.mem_map.mpr ⟨x, hx, heq⟩)
  rw [List.filter_eq_nil_iff.mpr, List.filter_eq_nil_iff.mpr, List.append_nil]
  · intro x hx
    simp [hnone x hx]
  · intro x hx
    simp [hnone x hx]

/-- Auxiliary count fact: filtering by a predicate the element fails
leaves no copy of it. -/
theorem count_filter_neg {α : Type} [DecidableEq α] {p : α → Bool} {a : α}
    (h : p a = false) (l : List α) : (l.filter p).count a = 0 :=
  List.count_eq_zero.mpr (fun hm => by simp [List.mem_filter, h] at hm)

/-- `membOf` keeps exactly the registry's copies of each benchmark of its
group and drops everything else. -/
theorem count_membOf (reg : List Benchmark) (g : String) (x : Benchmark) :
    (membOf reg g).count x = if x.group = g then reg.count x else 0 := by
  unfold membOf
  rw [List.count_append]
  by_cases hg : x.group = g
  · rw [if_pos hg]
    by_cases hr : x.role = Role.baseline
    · rw [List.count_filter (by simp [hg, hr]), count_filter_neg (by simp [hr])]
      omega
    · rw [count_filter_neg (by simp [hr]), List.count_filter (by simp [hg, hr])]
      omega
  · rw [if_neg hg, count_filter_neg (by simp [hg]), count_filter_neg (by simp [hg])]

/-- Counting over the per-group blocks of a duplicate-free group list. -/
theorem count_flatMap_membOf (reg : List Benchmark) (x : Benchmark) :
    ∀ (gs : List String), gs.Nodup →
      (gs.flatMap (membOf reg)).count x = if x.group ∈ gs then reg.count x else 0
  | [], _ => by simp
  | g :: rest, hnd => by
    rw [show (g :: rest).flatMap (membOf reg) = membOf reg g ++ rest.flatMap (membOf reg)
        from rfl,
      List.count_append, count_membOf,
      count_flatMap_membOf reg x rest (List.nodup_cons.mp hnd).2]
    by_cases hg : x.group = g
    · have hnin : x.group ∉ rest := fun hmem => (List.nodup_cons.mp hnd).1 (hg ▸ hmem)
      rw [if_pos hg, if_neg hnin, if_pos (by simp [hg])]
      omega
    · rw [if_neg hg]
      simp [List.mem_cons, hg]

/-- The Executor's visiting order is a permutation of the registry: every
registered benchmark is visited exactly once. -/
theorem executionOrder_perm (reg : List Benchmark) : (executionOrder reg).Perm reg := by
  rw [List.perm_iff_count]
  intro x
  unfold executionOrder groupsOf
  rw [count_flatMap_membOf reg x _ (nodup_firstUniq _)]
  by_cases h : x.group ∈ firstUniq (reg.map (fun b => b.group))
  · rw [if_pos h]
  · rw [if_neg h]
    have hx : x ∉ reg := fun hx =>
      h ((mem_firstUniq _ _).mpr (List.mem_map.mpr ⟨x, hx, rfl⟩))
    exact (List.count_eq_zero.mpr hx).symm

/-- Restricting the per-group blocks to one group recovers that group's
block, when the group list is duplicate-free. -/
theorem filter_flatMap_group (reg : List Benchmark) (g : String) :
    ∀ (gs : List String), gs.Nodup →
      (gs.flatMap (membOf reg)).filter (fun b => decide (b.group = g)) =
        if g ∈ gs then membOf reg g else []
  | [], _ => by simp
  | g' :: rest, hnd => by
    rw [show (g' :: rest).flatMap (membOf reg) = membOf reg g' ++ rest.flatMap (membOf reg)
        from rfl,
      List.filter_append, filter_flatMap_group reg g rest (List.nodup_cons.mp hnd).2]
    have hblock : (membOf reg g').filter (fun b => decide (b.group = g)) =
        if g' = g then membOf reg g' else [] := by
      by_cases h : g' = g
      · subst h
        rw [if_pos rfl]
        exact List.filter_eq_self.mpr (fun b hb => by simp [group_of_mem_membOf hb])
      · rw [if_neg h]
        exact List.filter_eq_nil_iff.mpr (fun b hb => by simp [group_of_mem_membOf hb, h])
    rw [hblock]
    by_cases h : g' = g
    · subst h
      have hnin : g' ∉ rest := (List.nodup_cons.mp hnd).1
      simp [hnin]
    · have hne : g ≠ g' := fun heq => h heq.symm
      simp [h, List.mem_cons, hne]

/-- Within the Executor's visiting order, one group's benchmarks are
exactly `membOf`: the group's Baseline entries first, then its other
benchmarks, each part in registration order. -/
theorem executionOrder_filter (reg : List Benchmark) (g : String) :
    (executionOrder reg).filter (fun b => decide (b.group = g)) = membOf reg g := by
  unfold executionOrder groupsOf
  rw [filter_flatMap_group reg g _ (nodup_firstUniq _)]
  by_cases h : g ∈ firstUniq (reg.map (fun b => b.group))
  · rw [if_pos h]
  · rw [if_neg h]
    exact (membOf_eq_nil (fun hmem => h ((mem_firstUniq _ _).mpr hmem))).symm

/-- `firstUniq` over a nonempty block of one repeated string followed by a
tail keeps the string once and filters it from the tail. -/
theorem firstUniq_append_block (g : String) :
    ∀ (blk t : List String), blk ≠ [] → (∀ x ∈ blk, x = g) →
      firstUniq (blk ++ t) = g :: (firstUniq t).filter (fun x => decide (x ≠ g))
  | [], _, h, _ => absurd rfl h
  | [x], t, _, hall => by
    have hx : x = g := hall x (by simp)
    subst hx
    simp [firstUniq]
  | x :: y :: blk', t, _, hall => by
    have hx : x = g := hall x (by simp)
    subst hx
    rw [show ((x :: y :: blk') ++ t) = x :: ((y :: blk') ++ t) from rfl,
      show firstUniq (x :: ((y :: blk') ++ t)) =
        x :: (firstUniq ((y :: blk') ++ t)).filter (fun z => decide (z ≠ x)) from rfl,
      firstUniq_append_block x (y :: blk') t (by simp)
        (fun z hz => hall z (List.mem_cons_of_mem _ hz))]
    simp [List.filter_cons, List.filter_filter]

/-- `firstUniq` over per-key blocks of a duplicate-free key list recovers
the key list, provided every key's block is nonempty and homogeneous. -/
theorem firstUniq_flatMap (f : String → List String) :
    ∀ (gs : List String), gs.Nodup →
      (∀ g ∈ gs, f g ≠ [] ∧ ∀ x ∈ f g, x = g) →
      firstUniq (gs.flatMap f) = gs
  | [], _, _ => rfl
  | g :: rest, hnd, hf => by
    rw [show (g :: rest).flatMap f = f g ++ rest.flatMap f from rfl,
      firstUniq_append_block g (f g) _ (hf g (List.mem_cons_self g rest)).1
        (hf g (List.mem_cons_self g rest)).2,
      firstUniq_flatMap f rest (List.nodup_cons.mp hnd).2
        (fun g' h' => hf g' (List.mem_cons_of_mem _ h'))]
    congr 1
    refine List.filter_eq_self.mpr (fun x hx => ?_)
    simp only [decide_eq_true_eq]
    exact fun heq => (List.nodup_cons.mp hnd).1 (heq ▸ hx)

/-- The Executor visits the registry's groups in registration order: the
first-occurrence group sequence of the visiting order is exactly the
registry's. -/
theorem groupsOf_executionOrder (reg : List Benchmark) :
    groupsOf (executionOrder reg) = groupsOf reg := by
  show firstUniq ((executionOrder reg).map (fun b => b.group)) = groupsOf reg
  unfold executionOrder
  rw [List.map_flatMap]
  exact firstUniq_flatMap _ (groupsOf reg) (nodup_firstUniq _) (by
    intro g hg
    constructor
    · intro hnil
      rcases List.mem_map.mp ((mem_firstUniq _ _).mp hg) with ⟨b, hb, rfl⟩
      exact (List.ne_nil_of_mem (List.mem_map.mpr
        ⟨b, mem_membOf_of_mem hb rfl, rfl⟩)) hnil
    · intro x hx
      rcases List.mem_map.mp hx with ⟨b, hb, rfl⟩
      exact group_of_mem_membOf hb)

/-- C3: registering a (group, name) that already exists fails with
`DuplicateRegistration` (through `RegisterTest` and `RegisterBaseline`
alike); a second Baseline for a group that already has one fails with
`MultipleBaselines`; and a successful registration only ever appends the
new descriptor, so a failed one leaves the registry unchanged — no
corrupted entry. -/
theorem registration_errors (reg : List Benchmark) (g n : String) (s i : Nat) (t : Rat) :
    ((∃ x ∈ reg, x.group = g ∧ x.name = n) →
      RegisterTest reg g n s i t = Except.error RegError.DuplicateRegistration ∧
      RegisterBaseline reg g n s i = Except.error RegError.DuplicateRegistration) ∧
    ((¬ ∃ x ∈ reg, x.group = g ∧ x.name = n) →
      (∃ x ∈ reg, x.group = g ∧ x.role = Role.baseline) →
      RegisterBaseline reg g n s i = Except.error RegError.MultipleBaselines) ∧
    (∀ (b : Benchmark) (reg' : List Benchmark),
      register reg b = Except.ok reg' → reg' = reg ++ [b]) := by
  refine ⟨?_, ?_, ?_⟩
  · intro h
    constructor
    · unfold RegisterTest register
      rw [if_pos h]
    · unfold RegisterBaseline register
      rw [if_pos h]
  · intro hdup hbase
    unfold RegisterBaseline register
    rw [if_neg hdup, if_pos ⟨rfl, hbase⟩]
  · intro b reg' h
    unfold register at h
    split_ifs at h
    exact (Except.ok.injEq _ _).mp h |>.symm

/-- Closed instance of `registration_errors`: a concrete duplicate
(group, name), a concrete second baseline, and a concrete successful
append. -/
theorem registration_errors_witness :
    RegisterTest [⟨"G", "base", Role.baseline, 3, 10, -1⟩] "G" "base" 2 4 7 =
      Except.error RegError.DuplicateRegistration ∧
    RegisterBaseline [⟨"G", "base", Role.baseline, 3, 10, -1⟩] "G" "other" 2 4 =
      Except.error RegError.MultipleBaselines ∧
    ([⟨"G", "base", Role.baseline, 3, 10, -1⟩, ⟨"G", "other", Role.test, 2, 4, -1⟩] :
        List Benchmark) =
      [⟨"G", "base", Role.baseline, 3, 10, -1⟩] ++ [⟨"G", "other", Role.test, 2, 4, -1⟩] := by
  refine ⟨?_, ?_, ?_⟩
  · exact ((registration_errors [⟨"G", "base", Role.baseline, 3, 10, -1⟩] "G" "base" 2 4 7).1
      ⟨⟨"G", "base", Role.baseline, 3, 10, -1⟩, List.mem_singleton.mpr rfl, rfl, rfl⟩).1
  · exact (registration_errors [⟨"G", "base", Role.baseline, 3, 10, -1⟩] "G" "other" 2 4 7).2.1
      (by decide)
      ⟨⟨"G", "base", Role.baseline, 3, 10, -1⟩, List.mem_singleton.mpr rfl, rfl, rfl⟩
  · exact (registration_errors [⟨"G", "base", Role.baseline, 3, 10, -1⟩] "G" "x" 0 0 0).2.2
      ⟨"G", "other", Role.test, 2, 4, -1⟩ _ (by rfl)

/-- Both fields a Result shares with its benchmark's key are preserved:
the Executor labels each Result with its benchmark's group and name. -/
theorem resultOf_key (reg : List Benchmark) (envs : Envs) (x : Benchmark) :
    (resultOf reg envs x).group = x.group ∧ (resultOf reg envs x).name = x.name := by
  simp only [resultOf]
  cases hf : firstFailure (envs x.group x.name) (numSamples x (envs x.group x.name)) <;>
    simp [hf]

/-- C1: a benchmark registered with a positive `sampleCount` whose
lifecycle does not raise gets a Result whose actual sample count is
exactly the configured `sampleCount`, and that Result is among those
`Run` emits. -/
theorem sampleCount_exact (reg : List Benchmark) (envs : Envs) (b : Benchmark)
    (hpos : 0 < b.sampleCount)
    (hok : firstFailure (envs b.group b.name) (numSamples b (envs b.group b.name)) = none) :
    (resultOf reg envs b).sampleCount = b.sampleCount ∧
    (b ∈ reg → resultOf reg envs b ∈ Run reg envs) := by
  have hn : numSamples b (envs b.group b.name) = b.sampleCount := by
    unfold numSamples
    rw [if_neg (Nat.pos_iff_ne_zero.mp hpos)]
  constructor
  · simp only [resultOf, hok]
    simp [fixedSamples, hn]
  · intro hmem
    unfold Run
    exact List.mem_map.mpr ⟨b, ((executionOrder_perm reg).mem_iff).mpr hmem, rfl⟩

/-- Closed instance of `sampleCount_exact`: three configured samples, a
clean run, an actual count of three. -/
theorem sampleCount_exact_witness :
    0 < (3 : Nat) ∧
    ((resultOf [⟨"G", "t", Role.test, 3, 2, -1⟩]
        (fun _ _ => ⟨fun _ => 5, fun _ => none⟩)
        ⟨"G", "t", Role.test, 3, 2, -1⟩).sampleCount = 3 ∧
      (⟨"G", "t", Role.test, 3, 2, -1⟩ ∈ ([⟨"G", "t", Role.test, 3, 2, -1⟩] : List Benchmark) →
        resultOf [⟨"G", "t", Role.test, 3, 2, -1⟩]
          (fun _ _ => ⟨fun _ => 5, fun _ => none⟩) ⟨"G", "t", Role.test, 3, 2, -1⟩ ∈
        Run [⟨"G", "t", Role.test, 3, 2, -1⟩] (fun _ _ => ⟨fun _ => 5, fun _ => none⟩))) :=
  ⟨by decide, sampleCount_exact _ _ _ (by decide) (by decide)⟩

/-- C7: every cleanly measured Result reports
`opsPerSecond = iterationCount / meanSampleTimeInSeconds` (durations are
microseconds, so the mean is scaled by 10^6), where the Result's mean is
the arithmetic mean of the per-sample elapsed times. -/
theorem opsPerSecond_spec (reg : List Benchmark) (envs : Envs) (b : Benchmark)
    (hok : firstFailure (envs b.group b.name) (numSamples b (envs b.group b.name)) = none) :
    (resultOf reg envs b).opsPerSecond =
      (Nat.cast b.iterationCount : Rat) / ((resultOf reg envs b).mean / 1000000) ∧
    (resultOf reg envs b).mean =
      (Nat.cast (fixedSamples (envs b.group b.name).sampleTime
          (numSamples b (envs b.group b.name))).sum : Rat) /
        (Nat.cast (numSamples b (envs b.group b.name)) : Rat) := by
  simp only [resultOf, hok]
  constructor
  · trivial
  · simp [sampleMean, fixedSamples]

/-- Closed instance of `opsPerSecond_spec` on a clean two-sample run. -/
theorem opsPerSecond_spec_witness :
    firstFailure ((fun (_ _ : String) => (⟨fun _ => 4, fun _ => none⟩ : Experiment)) "G" "t")
      (numSamples ⟨"G", "t", Role.test, 2, 3, -1⟩
        ((fun (_ _ : String) => (⟨fun _ => 4, fun _ => none⟩ : Experiment)) "G" "t")) = none ∧
    ((resultOf [] (fun _ _ => ⟨fun _ => 4, fun _ => none⟩) ⟨"G", "t", Role.test, 2, 3, -1⟩).opsPerSecond =
      (Nat.cast (3 : Nat) : Rat) /
        ((resultOf [] (fun _ _ => ⟨fun _ => 4, fun _ => none⟩)
          ⟨"G", "t", Role.test, 2, 3, -1⟩).mean / 1000000) ∧
    (resultOf [] (fun _ _ => ⟨fun _ => 4, fun _ => none⟩) ⟨"G", "t", Role.test, 2, 3, -1⟩).mean =
      (Nat.cast (fixedSamples ((fun (_ _ : String) =>
          (⟨fun _ => 4, fun _ => none⟩ : Experiment)) "G" "t").sampleTime
          (numSamples ⟨"G", "t", Role.test, 2, 3, -1⟩
            ((fun (_ _ : String) => (⟨fun _ => 4, fun _ => none⟩ : Experiment)) "G" "t"))).sum : Rat) /
        (Nat.cast (numSamples ⟨"G", "t", Role.test, 2, 3, -1⟩
          ((fun (_ _ : String) => (⟨fun _ => 4, fun _ => none⟩ : Experiment)) "G" "t")) : Rat)) :=
  ⟨by decide, opsPerSecond_spec _ _ _ (by decide)⟩

/-- C10: omitting `RegisterTest`'s target argument is exactly the call
with the default sentinel `-1`, and any negative target is observably
identical to the sentinel: the Result the Executor computes is the same
record, because a negative target means no grading is configured. -/
theorem target_default_sentinel (reg : List Benchmark) (g n : String) (s i : Nat)
    (envs : Envs) (b : Benchmark) (t : Rat) (ht : t < 0) :
    RegisterTestNoTarget reg g n s i = RegisterTest reg g n s i (-1) ∧
    resultOf reg envs { b with target := t } = resultOf reg envs { b with target := -1 } := by
  refine ⟨rfl, ?_⟩
  have hs : ∀ ops : Rat, statusOf ops t = statusOf ops (-1) := by
    intro ops
    unfold statusOf
    rw [if_neg (not_le.mpr ht), if_neg (by norm_num)]
  cases b with
  | mk bg bn br bs bi bt =>
    simp only [resultOf, numSamples]
    cases hf : firstFailure (envs bg bn)
        (if bs = 0 then (adaptiveSample (envs bg bn).sampleTime).length else bs) with
    | some c => rfl
    | none => simp [hs]

/-- Closed instance of `target_default_sentinel` at target `-2`. -/
theorem target_default_sentinel_witness :
    (-2 : Rat) < 0 ∧
    (RegisterTestNoTarget [] "G" "n" 1 1 = RegisterTest [] "G" "n" 1 1 (-1) ∧
    resultOf [] (fun _ _ => ⟨fun _ => 1, fun _ => none⟩) ⟨"G", "n", Role.test, 1, 1, -2⟩ =
      resultOf [] (fun _ _ => ⟨fun _ => 1, fun _ => none⟩) ⟨"G", "n", Role.test, 1, 1, -1⟩) :=
  ⟨by norm_num, target_default_sentinel [] "G" "n" 1 1
    (fun _ _ => ⟨fun _ => 1, fun _ => none⟩) ⟨"G", "n", Role.test, 1, 1, 0⟩ (-2) (by norm_num)⟩

/-- C8: `BuildDistribution(N, K)` returns exactly `N` measurements, all
non-negative, for every `N ≥ 0` and `K ≥ 1`. -/
theorem buildDistribution_spec (timer : Nat → Nat) (n k : Nat) (_hk : 1 ≤ k) :
    (BuildDistribution timer n k).length = n ∧
    ∀ x ∈ BuildDistribution timer n k, 0 ≤ x := by
  unfold BuildDistribution fixedSamples
  constructor
  · simp
  · intro x _
    exact Nat.zero_le x

/-- Closed instance of `buildDistribution_spec` at `N = 4`, `K = 2`. -/
theorem buildDistribution_witness :
    1 ≤ 2 ∧ ((BuildDistribution (fun j => j + 3) 4 2).length = 4 ∧
      ∀ x ∈ BuildDistribution (fun j => j + 3) 4 2, 0 ≤ x) :=
  ⟨by decide, buildDistribution_spec (fun j => j + 3) 4 2 (by decide)⟩

/-- Loop invariant of the adaptive collection loop: starting from a
prefix of the timer's sample sequence, `adaptiveGo` returns a longer
prefix, grows by at most the remaining budget, ends either because the
stopping test held or because the budget ran out, and never passes a
point where the stopping test held — it stops at the first opportunity. -/
theorem adaptiveGo_spec (timer : Nat → Nat) :
    ∀ (fuel : Nat) (acc : List Nat), acc = (List.range acc.length).map timer →
      (adaptiveGo timer acc fuel =
        (List.range (adaptiveGo timer acc fuel).length).map timer) ∧
      acc.length ≤ (adaptiveGo timer acc fuel).length ∧
      (adaptiveGo timer acc fuel).length ≤ acc.length + fuel ∧
      (adaptiveStop (adaptiveGo timer acc fuel) = true ∨
        (adaptiveGo timer acc fuel).length = acc.length + fuel) ∧
      (∀ m, acc.length < m → m < (adaptiveGo timer acc fuel).length →
        adaptiveStop ((List.range m).map timer) = false)
  | 0, acc, hpre => by
    simp only [adaptiveGo]
    exact ⟨hpre, Nat.le_refl _, Nat.le_add_right _ 0, Or.inr (Nat.add_zero _).symm,
      fun m h1 h2 => absurd (h1.trans h2) (lt_irrefl _)⟩
  | fuel + 1, acc, hpre => by
    have hlen : (acc ++ [timer acc.length]).length = acc.length + 1 := by simp
    have hpre' : acc ++ [timer acc.length] =
        (List.range (acc ++ [timer acc.length]).length).map timer := by
      rw [hlen, List.range_succ, List.map_append]
      simp [← hpre]
    simp only [adaptiveGo]
    by_cases hstop : adaptiveStop (acc ++ [timer acc.length]) = true
    · rw [if_pos hstop]
      refine ⟨hpre', by omega, by omega, Or.inl hstop, ?_⟩
      intro m h1 h2
      rw [hlen] at h2
      exact absurd h1 (by omega)
    · rw [if_neg hstop]
      obtain ⟨ih1, ih2, ih3, ih4, ih5⟩ :=
        adaptiveGo_spec timer fuel (acc ++ [timer acc.length]) hpre'
      rw [hlen] at ih2 ih3 ih4
      refine ⟨ih1, by omega, by omega, ?_, ?_⟩
      · cases ih4 with
        | inl h => exact Or.inl h
        | inr h => exact Or.inr (by omega)
      · intro m h1 h2
        by_cases hm : m = acc.length + 1
        · subst hm
          rw [hlen] at hpre'
          rw [← hpre']
          cases hb : adaptiveStop (acc ++ [timer acc.length]) with
          | false => rfl
          | true => exact absurd hb hstop
        · exact ih5 m (by rw [hlen]; omega) h2

/-- C2: the adaptive sampling loop terminates with a sample count inside
the configured [minimum, cap] bounds; at termination either the running
relative standard error is below the configured threshold or the cap was
reached, whichever came first — no shorter sample prefix beyond the
minimum already satisfied the stopping test. -/
theorem adaptive_sampling_spec (timer : Nat → Nat) :
    adaptiveMinSamples ≤ (adaptiveSample timer).length ∧
    (adaptiveSample timer).length ≤ adaptiveMaxSamples ∧
    (relSEMBelow (adaptiveSample timer) = true ∨
      (adaptiveSample timer).length = adaptiveMaxSamples) ∧
    ∀ m, m < (adaptiveSample timer).length →
      adaptiveStop ((List.range m).map timer) = false := by
  obtain ⟨h1, h2, h3, h4, h5⟩ :=
    adaptiveGo_spec timer adaptiveMaxSamples [] (by simp)
  have hlen0 : ([] : List Nat).length = 0 := rfl
  rw [hlen0] at h3 h4
  unfold adaptiveSample
  refine ⟨?_, by omega, ?_, ?_⟩
  · cases h4 with
    | inl h =>
      simp only [adaptiveStop, Bool.and_eq_true, decide_eq_true_eq] at h
      exact h.1
    | inr h => rw [h]; decide
  · cases h4 with
    | inl h =>
      simp only [adaptiveStop, Bool.and_eq_true, decide_eq_true_eq] at h
      exact Or.inl h.2
    | inr h => exact Or.inr (by omega)
  · intro m hm
    by_cases h0 : m = 0
    · subst h0
      rw [List.range_zero, List.map_nil]
      decide
    · exact h5 m (by omega) hm

/-- Closed instance of `adaptive_sampling_spec` under a constant timer:
the loop produced a nonempty sample list and no proper prefix of it
already satisfied the stopping test. -/
theorem adaptive_sampling_witness :
    0 < (adaptiveSample (fun _ => 1)).length ∧
    adaptiveStop ((List.range 0).map (fun _ => (1 : Nat))) = false :=
  have h0 : 0 < (adaptiveSample (fun _ => 1)).length :=
    Nat.lt_of_lt_of_le (by decide) (adaptive_sampling_spec (fun _ => 1)).1
  ⟨h0, (adaptive_sampling_spec (fun _ => 1)).2.2.2 0 h0⟩

/-- C4 (counterexample): with one registered benchmark whose measured
throughput (1 op/s) misses its configured target (1,000,000 ops/s), the
Result stream after `Run` contains a `Failed` Result, yet `CELERO_MAIN`
still returns exit code 0 — the process does not signal failure, contrary
to the claim. -/
theorem celeroMain_exit_counterexample :
    ((Run [⟨"G", "slow", Role.test, 2, 1, 1000000⟩]
        (fun _ _ => ⟨fun _ => 1000000, fun _ => none⟩)).any
      (fun r => decide (r.status = Status.Failed)) = true) ∧
    (celeroMain [⟨"G", "slow", Role.test, 2, 1, 1000000⟩]
        (fun _ _ => ⟨fun _ => 1000000, fun _ => none⟩)).2 = 0 := by
  have hb : baselineMeanOf [⟨"G", "slow", Role.test, 2, 1, 1000000⟩]
      (fun _ _ => ⟨fun _ => 1000000, fun _ => none⟩) "G" = none := by decide
  have hres : resultOf [⟨"G", "slow", Role.test, 2, 1, 1000000⟩]
      (fun _ _ => ⟨fun _ => 1000000, fun _ => none⟩)
      ⟨"G", "slow", Role.test, 2, 1, 1000000⟩ =
    { group := "G", name := "slow", role := Role.test, sampleCount := 2,
      mean := 1000000, minSample := 1000000, maxSample := 1000000, variance := 0,
      opsPerSecond := 1, ratioToBaseline := none, status := Status.Failed,
      failureCause := none } := by
    simp only [resultOf, numSamples]
    norm_num [firstFailure, fixedSamples, sampleMean, popVariance, minTime, maxTime,
      statusOf, hb, List.range_succ]
  have hexec : executionOrder [⟨"G", "slow", Role.test, 2, 1, 1000000⟩] =
      [⟨"G", "slow", Role.test, 2, 1, 1000000⟩] := by decide
  constructor
  · rw [Run, hexec]
    simp [hres]
  · rfl

/-- C4 (amended): `CELERO_MAIN` runs every registered benchmark through
`Run` and then returns exit code 0 unconditionally — the exit code never
reflects Failed results or missed targets. -/
theorem celeroMain_exit_always_zero (reg : List Benchmark) (envs : Envs) :
    (celeroMain reg envs).2 = 0 := rfl

/-- C6: the ratio to the baseline is left undefined when the group has no
registered baseline; when the group's baseline mean is available the
ratio is exactly the Result's own mean divided by the baseline mean; and
a benchmark that is itself its group's baseline (with a nonzero mean)
gets ratio exactly 1. -/
theorem ratio_to_baseline_spec (reg : List Benchmark) (envs : Envs) (b : Benchmark) :
    (reg.find? (fun x => decide (x.group = b.group ∧ x.role = Role.baseline)) = none →
      (resultOf reg envs b).ratioToBaseline = none) ∧
    (∀ m : Rat,
      firstFailure (envs b.group b.name) (numSamples b (envs b.group b.name)) = none →
      baselineMeanOf reg envs b.group = some m →
      (resultOf reg envs b).ratioToBaseline =
        some ((resultOf reg envs b).mean / m)) ∧
    (reg.find? (fun x => decide (x.group = b.group ∧ x.role = Role.baseline)) = some b →
      firstFailure (envs b.group b.name) (numSamples b (envs b.group b.name)) = none →
      sampleMean (fixedSamples (envs b.group b.name).sampleTime
        (numSamples b (envs b.group b.name))) ≠ 0 →
      (resultOf reg envs b).ratioToBaseline = some 1) := by
  refine ⟨?_, ?_, ?_⟩
  · intro hfind
    have hbm : baselineMeanOf reg envs b.group = none := by
      unfold baselineMeanOf
      rw [hfind]
    simp only [resultOf]
    cases hf : firstFailure (envs b.group b.name) (numSamples b (envs b.group b.name)) with
    | some c => simp
    | none => simp [hbm]
  · intro m hok hbm
    simp only [resultOf, hok, hbm]
    simp
  · intro hfind hok hne
    have hbm : baselineMeanOf reg envs b.group =
        some (sampleMean (fixedSamples (envs b.group b.name).sampleTime
          (numSamples b (envs b.group b.name)))) := by
      unfold baselineMeanOf
      rw [hfind]
      simp only [hok]
    simp only [resultOf, hok, hbm]
    simp [div_self hne]

/-- Closed instance of `ratio_to_baseline_spec`: an empty registry yields
an undefined ratio; a group whose baseline measures a constant 2 μs per
sample yields ratio `mean / 2`; the baseline itself yields ratio 1. -/
theorem ratio_to_baseline_witness :
    (resultOf [] (fun _ _ => ⟨fun _ => 2, fun _ => none⟩)
      ⟨"G", "base", Role.baseline, 2, 1, -1⟩).ratioToBaseline = none ∧
    (resultOf [⟨"G", "base", Role.baseline, 2, 1, -1⟩]
      (fun _ _ => ⟨fun _ => 2, fun _ => none⟩)
      ⟨"G", "base", Role.baseline, 2, 1, -1⟩).ratioToBaseline =
      some ((resultOf [⟨"G", "base", Role.baseline, 2, 1, -1⟩]
        (fun _ _ => ⟨fun _ => 2, fun _ => none⟩)
        ⟨"G", "base", Role.baseline, 2, 1, -1⟩).mean / 2) ∧
    (resultOf [⟨"G", "base", Role.baseline, 2, 1, -1⟩]
      (fun _ _ => ⟨fun _ => 2, fun _ => none⟩)
      ⟨"G", "base", Role.baseline, 2, 1, -1⟩).ratioToBaseline = some 1 := by
  have hmean : sampleMean (fixedSamples ((fun (_ _ : String) =>
      (⟨fun _ => 2, fun _ => none⟩ : Experiment)) "G" "base").sampleTime
      (numSamples ⟨"G", "base", Role.baseline, 2, 1, -1⟩
        ((fun (_ _ : String) => (⟨fun _ => 2, fun _ => none⟩ : Experiment)) "G" "base"))) = 2 := by
    norm_num [sampleMean, fixedSamples, numSamples, List.range_succ]
  have hbm : baselineMeanOf [⟨"G", "base", Role.baseline, 2, 1, -1⟩]
      (fun _ _ => ⟨fun _ => 2, fun _ => none⟩) "G" = some 2 := by
    unfold baselineMeanOf
    rw [show ([⟨"G", "base", Role.baseline, 2, 1, -1⟩] : List Benchmark).find?
        (fun x => decide (x.group = "G" ∧ x.role = Role.baseline)) =
        some ⟨"G", "base", Role.baseline, 2, 1, -1⟩ from by decide]
    simp only [show firstFailure ((fun (_ _ : String) =>
        (⟨fun _ => 2, fun _ => none⟩ : Experiment)) "G" "base")
        (numSamples ⟨"G", "base", Role.baseline, 2, 1, -1⟩
          ((fun (_ _ : String) => (⟨fun _ => 2, fun _ => none⟩ : Experiment)) "G" "base")) = none
      from by decide]
    rw [hmean]
  refine ⟨?_, ?_, ?_⟩
  · exact (ratio_to_baseline_spec [] (fun _ _ => ⟨fun _ => 2, fun _ => none⟩)
      ⟨"G", "base", Role.baseline, 2, 1, -1⟩).1 (by decide)
  · exact (ratio_to_baseline_spec [⟨"G", "base", Role.baseline, 2, 1, -1⟩]
      (fun _ _ => ⟨fun _ => 2, fun _ => none⟩)
      ⟨"G", "base", Role.baseline, 2, 1, -1⟩).2.1 2 (by decide) hbm
  · exact (ratio_to_baseline_spec [⟨"G", "base", Role.baseline, 2, 1, -1⟩]
      (fun _ _ => ⟨fun _ => 2, fun _ => none⟩)
      ⟨"G", "base", Role.baseline, 2, 1, -1⟩).2.2 (by decide) (by decide)
      (by rw [hmean]; norm_num)

/-- C5: when a benchmark's lifecycle raises, its Result is marked Failed
with the captured cause; `Run` still emits one Result per registered
benchmark, in the same visiting order and keyed by each benchmark's
(group, name); and replacing one benchmark's Experiment (for instance by
a raising one) cannot change any other benchmark's Result, as long as the
other benchmark has a different (group, name) and its group's baseline is
not the replaced benchmark — so a failure never prevents or alters the
others, and no target comparison aborts the run. -/
theorem failure_isolation (reg : List Benchmark) (envs : Envs) (b : Benchmark) (cause : String)
    (hf : firstFailure (envs b.group b.name) (numSamples b (envs b.group b.name)) = some cause) :
    (resultOf reg envs b).status = Status.Failed ∧
    (resultOf reg envs b).failureCause = some cause ∧
    (Run reg envs).length = reg.length ∧
    ((Run reg envs).map (fun r => (r.group, r.name)) =
      (executionOrder reg).map (fun x => (x.group, x.name))) ∧
    (∀ (c : Benchmark) (e' : Experiment),
      ¬(c.group = b.group ∧ c.name = b.name) →
      (∀ bb, reg.find? (fun x => decide (x.group = c.group ∧ x.role = Role.baseline)) =
          some bb → ¬(bb.group = b.group ∧ bb.name = b.name)) →
      resultOf reg (updateEnv envs b.group b.name e') c = resultOf reg envs c) := by
  refine ⟨?_, ?_, ?_, ?_, ?_⟩
  · simp only [resultOf, hf]
  · simp only [resultOf, hf]
  · unfold Run
    rw [List.length_map]
    exact (executionOrder_perm reg).length_eq
  · unfold Run
    rw [List.map_map]
    exact List.map_congr_left (fun x _ => by
      have h := resultOf_key reg envs x
      simp [h.1, h.2])
  · intro c e' hkey hbase
    have henv : updateEnv envs b.group b.name e' c.group c.name = envs c.group c.name := by
      unfold updateEnv
      rw [if_neg hkey]
    have hbm : baselineMeanOf reg (updateEnv envs b.group b.name e') c.group =
        baselineMeanOf reg envs c.group := by
      unfold baselineMeanOf
      cases hfind : reg.find? (fun x => decide (x.group = c.group ∧ x.role = Role.baseline)) with
      | none => rfl
      | some bb =>
        have henvb : updateEnv envs b.group b.name e' bb.group bb.name =
            envs bb.group bb.name := by
          unfold updateEnv
          rw [if_neg (hbase bb hfind)]
        simp only [henvb]
    simp only [resultOf, henv, hbm]

/-- Closed instance of `failure_isolation`: a raising benchmark in group
"G" is marked Failed with its cause, and a benchmark of group "H" keeps
the very same Result when "G"'s experiment is swapped. -/
theorem failure_isolation_witness :
    firstFailure ((fun (_ _ : String) =>
        (⟨fun _ => 1, fun _ => some "boom"⟩ : Experiment)) "G" "bad")
      (numSamples ⟨"G", "bad", Role.test, 1, 1, -1⟩
        ((fun (_ _ : String) =>
          (⟨fun _ => 1, fun _ => some "boom"⟩ : Experiment)) "G" "bad")) = some "boom" ∧
    (resultOf [⟨"G", "bad", Role.test, 1, 1, -1⟩]
      (fun _ _ => ⟨fun _ => 1, fun _ => some "boom"⟩)
      ⟨"G", "bad", Role.test, 1, 1, -1⟩).status = Status.Failed ∧
    (resultOf [⟨"G", "bad", Role.test, 1, 1, -1⟩]
      (fun _ _ => ⟨fun _ => 1, fun _ => some "boom"⟩)
      ⟨"G", "bad", Role.test, 1, 1, -1⟩).failureCause = some "boom" ∧
    (Run [⟨"G", "bad", Role.test, 1, 1, -1⟩]
      (fun _ _ => ⟨fun _ => 1, fun _ => some "boom"⟩)).length = 1 ∧
    resultOf [⟨"G", "bad", Role.test, 1, 1, -1⟩]
      (updateEnv (fun _ _ => ⟨fun _ => 1, fun _ => some "boom"⟩) "G" "bad"
        ⟨fun _ => 9, fun _ => none⟩)
      ⟨"H", "ok", Role.test, 1, 1, -1⟩ =
    resultOf [⟨"G", "bad", Role.test, 1, 1, -1⟩]
      (fun _ _ => ⟨fun _ => 1, fun _ => some "boom"⟩)
      ⟨"H", "ok", Role.test, 1, 1, -1⟩ := by
  have h := failure_isolation [⟨"G", "bad", Role.test, 1, 1, -1⟩]
    (fun _ _ => ⟨fun _ => 1, fun _ => some "boom"⟩)
    ⟨"G", "bad", Role.test, 1, 1, -1⟩ "boom" (by decide)
  exact ⟨by decide, h.1, h.2.1, h.2.2.1, h.2.2.2.2 ⟨"H", "ok", Role.test, 1, 1, -1⟩
    ⟨fun _ => 9, fun _ => none⟩ (by decide)
    (fun bb hbb => by simp [List.find?] at hbb)⟩

/-- C9: `Run` visits every registered benchmark exactly once (its
visiting order is a permutation of the registry), the groups appear in
first-registration order, within each group the Baseline benchmarks come
before all others with each part in registration order (so the baseline's
statistics exist before any member's ratio is consumed), and running
against a reporter folds it over the Results one at a time, in visiting
order — each Result is handed over as soon as it is computed. -/
theorem run_order_spec {ρ : Type} (reg : List Benchmark) (envs : Envs)
    (reporter : ρ → Result → ρ) (r0 : ρ) :
    (executionOrder reg).Perm reg ∧
    (∀ g, (executionOrder reg).filter (fun x => decide (x.group = g)) = membOf reg g) ∧
    groupsOf (executionOrder reg) = groupsOf reg ∧
    RunFold reporter r0 reg envs = (Run reg envs).foldl reporter r0 := by
  refine ⟨executionOrder_perm reg, executionOrder_filter reg,
    groupsOf_executionOrder reg, ?_⟩
  unfold RunFold Run
  rw [List.foldl_map]

/-- Closed instance of `run_order_spec` on a two-benchmark registry whose
test precedes its baseline in registration order: the Executor still
visits the baseline first. -/
theorem run_order_witness :
    executionOrder [⟨"G", "t", Role.test, 1, 1, -1⟩, ⟨"G", "base", Role.baseline, 1, 1, -1⟩] =
      [⟨"G", "base", Role.baseline, 1, 1, -1⟩, ⟨"G", "t", Role.test, 1, 1, -1⟩] ∧
    (executionOrder [⟨"G", "t", Role.test, 1, 1, -1⟩,
        ⟨"G", "base", Role.baseline, 1, 1, -1⟩]).Perm
      [⟨"G", "t", Role.test, 1, 1, -1⟩, ⟨"G", "base", Role.baseline, 1, 1, -1⟩] := by
  constructor
  · decide
  · exact (run_order_spec [⟨"G", "t", Role.test, 1, 1, -1⟩,
      ⟨"G", "base", Role.baseline, 1, 1, -1⟩]
      (fun _ _ => ⟨fun _ => 1, fun _ => none⟩) (fun (n : Nat) _ => n + 1) 0).1

end Celero
